import Mathlib

/-!
# PWM period / duty-cycle computation of the PIC18F4520 demo programs

Shallow embedding of `setPWMFrequency` and `setPWMDutyCycleCCP2`
(`ADCPotPWMMusical/adcpot_music.c`, `PWM-MusicalTone/PWM-MusicalTone.c`) and of
`updateCCP2DutyCycle` (`PWM-CCP2/pwm_ccp2.c`), of the main loops of these three programs,
of `mux_SetDigits` (`SevenSegmentMultiplex/SevenSegmentMultiplex.c`) and of the display
loop of `MSSP-I2C_Master-Write/MSSP-I2C_Master-Write.c`.

Modelling conventions:
* `float`/`double` expressions are evaluated in exact rational arithmetic (`ℚ`);
  the literals `10e6`, `0.25`, `0.5`, `0.01f`, `1046.50` are the rationals they denote.
* a conversion of a floating value to an integer type discards the fractional
  part (truncation toward zero), `truncToInt`.
* the special function registers are natural numbers; a store to an `n`-bit
  register keeps the low `n` bits of the stored integer (`toReg`). For `PR2` this is exact
  while the stored value lies in 0..255; `setPWMFrequencyAny` leaves the byte of an
  out-of-range store open.
* `int` variables are unbounded integers; statements about the duty value are made where
  it stays below `2 ^ 15`. A table read outside the table has no result (`none`).
* in `stepEvent` an interrupt is served between two iterations of the main loop;
  `handlePressPreempted` lets Timer 0 overflows be served inside the press handler.
-/

namespace PWM

/-- Conversion of a floating value to an integer: the fractional part is discarded
(truncation toward zero). -/
def truncToInt (x : ℚ) : Int := Int.tdiv x.num (x.den : Int)

/-- Store of an integer into a register of `bits` bits: the low `bits` bits are kept. -/
def toReg (bits : Nat) (v : Int) : Nat := (v % (2 ^ bits : Int)).toNat

/-- The special function registers written by the PWM routines:
`PR2` (8 bits), `CCPR2L` (8 bits) and the field `CCP2CONbits.DC2B` (2 bits). -/
structure Regs where
  PR2 : Nat
  CCPR2L : Nat
  DC2B : Nat
  deriving DecidableEq, Repr

/-- `#define FOSC (10e6)`: 10 MHz HS mode. -/
def FOSC : ℚ := 10000000

/-- `#define PWM_PRESCALE (16)`. -/
def PWM_PRESCALE : ℚ := 16

/-- `#define round(x) ((x) + 0.5)`. -/
def round (x : ℚ) : ℚ := x + 1 / 2

/-- `#define PWM_PERIOD (19)` of `pwm_ccp2.c`. -/
def PWM_PERIOD : Int := 19

/-- The right-hand side of the assignment in `setPWMFrequency`,
`0.25 * FOSC / freq / PWM_PRESCALE - 1`, before it is converted for the store. -/
def periodExpr (freq : ℚ) : ℚ := 1 / 4 * FOSC / freq / PWM_PRESCALE - 1

/-- The integer period value derived from the expression of `setPWMFrequency`
(conversion of `periodExpr freq` to an integer). -/
def periodValue (freq : ℚ) : Int := truncToInt (periodExpr freq)

/-- `void setPWMFrequency(float freq) { PR2 = 0.25 * FOSC / freq / PWM_PRESCALE - 1; }` -/
def setPWMFrequency (freq : ℚ) (s : Regs) : Regs :=
  { s with PR2 := toReg 8 (periodValue freq) }

/-- The local `pwm_duty_cycle` of `setPWMDutyCycleCCP2` / `updateCCP2DutyCycle`:
`round( (pwm_percentage * 0.01f) * (pwm_period + 1) * 4 )` converted to `int`. -/
def dutyCycleValue (pwm_percentage : Int) (pwm_period : Int) : Int :=
  truncToInt (round (((pwm_percentage : ℚ) * (1 / 100)) * ((pwm_period + 1 : Int) : ℚ) * 4))

/-- The two stores that end both duty-cycle routines:
`CCP2CONbits.DC2B = 0b11 & pwm_duty_cycle; CCPR2L = pwm_duty_cycle >> 2;`
(`& 0b11` is the remainder modulo 4 and `>> 2` the quotient by 4). -/
def writeDuty (pwm_duty_cycle : Int) (s : Regs) : Regs :=
  { s with DC2B := toReg 2 (pwm_duty_cycle % 4), CCPR2L := toReg 8 (pwm_duty_cycle / 4) }

/-- `void setPWMDutyCycleCCP2(int pwm_percentage)`: reads `PR2` into `pwm_period`,
computes `pwm_duty_cycle` and stores its two parts. -/
def setPWMDutyCycleCCP2 (pwm_percentage : Int) (s : Regs) : Regs :=
  writeDuty (dutyCycleValue pwm_percentage (s.PR2 : Int)) s

/-- `void updateCCP2DutyCycle(int pwm_percentage)` of `pwm_ccp2.c`: the same
computation with the constant `PWM_PERIOD` in place of the `PR2` read. -/
def updateCCP2DutyCycle (pwm_percentage : Int) (s : Regs) : Regs :=
  writeDuty (dutyCycleValue pwm_percentage PWM_PERIOD) s

/-- Lower end of the valid frequency range, `(256 / 0.25 * Prescale / FOSC)^-1`. -/
def freqMin : ℚ := (256 / (1 / 4) * PWM_PRESCALE / FOSC)⁻¹

/-- Upper end of the valid frequency range, `(1 / 0.25 * Prescale / FOSC)^-1`. -/
def freqMax : ℚ := (1 / (1 / 4) * PWM_PRESCALE / FOSC)⁻¹

/-- Round-half-up as the specification words it: `floor (x + 1/2)`. -/
def specRound (x : ℚ) : Int := ⌊x + 1 / 2⌋

/-- The duty value as the specification words it:
`round(percentage / 100.0 × (current_period + 1) × 4)`. -/
def specDuty (percentage : Int) (period : Int) : Int :=
  specRound ((percentage : ℚ) / 100 * ((period : ℚ) + 1) * 4)

/-- Register contents used as a starting state in the concrete scenarios. -/
def regs0 : Regs := { PR2 := 0, CCPR2L := 0, DC2B := 0 }

/-! ### `ADCPotPWMMusical/adcpot_music.c`: the main program -/

/-- The frequency requested in the main loop of `adcpot_music.c`:
`float freq = (ADCResult / 1024.0 * 1046.5) + 1046.50;`. -/
def adcFreq (ADCResult : Nat) : ℚ := (ADCResult : ℚ) / 1024 * 1046.5 + 1046.50

/-- The PWM set-up of `main` in `adcpot_music.c`, run once before the loop:
`setPWMFrequency(1046.50); setPWMDutyCycleCCP2(10);`. -/
def adcMainSetup (s : Regs) : Regs :=
  setPWMDutyCycleCCP2 10 (setPWMFrequency 1046.50 s)

/-- One iteration of `while (1)` in `main` of `adcpot_music.c`, for the value of `ADCResult`
read in that iteration: `float freq = ...; setPWMFrequency(freq);`. -/
def adcMainLoopBody (ADCResult : Nat) (s : Regs) : Regs :=
  setPWMFrequency (adcFreq ADCResult) s

/-! ### `PWM-CCP2/pwm_ccp2.c`: the main program -/

/-- The variables of `main` in `pwm_ccp2.c` together with the registers. -/
structure Ccp2State where
  pwm_percentage : Int
  regs : Regs
  RB0_Pressed : Bool
  deriving DecidableEq, Repr

/-- The set-up of `main` in `pwm_ccp2.c`:
`PR2 = PWM_PERIOD; pwm_percentage = 10; updateCCP2DutyCycle(pwm_percentage);`. -/
def ccp2MainSetup (s : Regs) : Ccp2State :=
  { pwm_percentage := 10,
    regs := updateCCP2DutyCycle 10 { s with PR2 := toReg 8 PWM_PERIOD },
    RB0_Pressed := false }

/-- The body of `if (RB0_Pressed)` in the loop of `main` in `pwm_ccp2.c`: the flag is
cleared, the percentage is reset to 0 when it is already 100 or more and is increased by
10 otherwise, and the duty cycle is updated. -/
def ccp2HandlePress (st : Ccp2State) : Ccp2State :=
  let pwm_percentage : Int := if st.pwm_percentage ≥ 100 then 0 else st.pwm_percentage + 10
  { pwm_percentage := pwm_percentage,
    regs := updateCCP2DutyCycle pwm_percentage st.regs,
    RB0_Pressed := false }

/-- The state of `pwm_ccp2.c` after `n` handled button presses. -/
def ccp2AfterPresses : Nat → Ccp2State → Ccp2State
  | 0, st => st
  | n + 1, st => ccp2HandlePress (ccp2AfterPresses n st)

/-! ### `SevenSegmentMultiplex/SevenSegmentMultiplex.c` -/

/-- `void mux_SetDigits(UINT16 input)`: the four stores to the `UINT8` array `mux_digits`,
returned as the list `[mux_digits[0], mux_digits[1], mux_digits[2], mux_digits[3]]`. -/
def mux_SetDigits (input : Nat) : List Nat :=
  let d0 := input % 10
  let input := input / 10
  let d1 := input % 10
  let input := input / 10
  let d2 := input % 10
  let input := input / 10
  let d3 := input % 10
  [d0 % 256, d1 % 256, d2 % 256, d3 % 256]

/-! ### `MSSP-I2C_Master-Write/MSSP-I2C_Master-Write.c` -/

/-- `const char SEVEN_SEG_CA[]`: the sixteen active-low patterns of the hex digits 0 to F. -/
def SEVEN_SEG_CA : List Nat :=
  [0xc0, 0xf9, 0xa4, 0xb0, 0x99, 0x92, 0x82, 0xf8, 0x80, 0x90, 0x88, 0x83, 0xc6, 0xa1, 0x86, 0x8e]

/-- The table index of the display loop, `(i < 0) ? -i : i`. -/
def sevSegIndex (i : Int) : Int := if i < 0 then -i else i

/-- The read `SEVEN_SEG_CA[ (i < 0) ? -i : i ]` of the display loop; `none` when the
index is outside the table. -/
def sevSegLookup (i : Int) : Option Nat := SEVEN_SEG_CA[(sevSegIndex i).toNat]?

/-- The values taken by `i` in `for (i = -16; i <= 16; i++)`. -/
def displayLoopValues : List Int := (List.range 33).map fun k => (k : Int) - 16

/-! ### `PWM-MusicalTone/PWM-MusicalTone.c`: the main program -/

/-- `float ToneFreq[]`: the notes C6 to C7 followed by the end marker `-1`. -/
def ToneFreq : List ℚ :=
  [1046.50, 1174.66, 1318.51, 1396.91, 1567.98, 1760.00, 1975.53, 2093.00, -1]

/-- `#define PWM_DUTY_CYCLE (10)`: percentage of duty cycle. -/
def PWM_DUTY_CYCLE : Int := 10

/-- `#define TIMER0_RESET_VAL (55769)`. -/
def TIMER0_RESET_VAL : Nat := 55769

/-- The local `array_index` of `main`, the flag `RB0_Pressed` and the registers written by
the musical-tone program. `array_index` only ever holds values from 0 upward. -/
structure ToneState where
  array_index : Nat
  regs : Regs
  TMR0H : Nat
  TMR0L : Nat
  RB0_Pressed : Bool
  deriving DecidableEq, Repr

/-- The two interrupt sources served by `ISR`. -/
inductive Event where
  | buttonPress
  | timer0Overflow
  deriving DecidableEq, Repr

/-- `void resetTimer0OneSecond()`:
`TMR0H = TIMER0_RESET_VAL >> 8; TMR0L = TIMER0_RESET_VAL & 0xFF;`. -/
def resetTimer0OneSecond (st : ToneState) : ToneState :=
  { st with TMR0H := (TIMER0_RESET_VAL / 256) % 256, TMR0L := TIMER0_RESET_VAL % 256 }

/-- The note selection at the head of `if (RB0_Pressed)`:
`freq = ToneFreq[++array_index]; if (freq == -1) { array_index = 0; freq = ToneFreq[array_index]; }`.
The result is the new `array_index` and `freq`, or `none` when a read falls outside the
table. -/
def nextNote (array_index : Nat) : Option (Nat × ℚ) :=
  match ToneFreq[array_index + 1]? with
  | none => none
  | some freq =>
    if freq = -1 then
      match ToneFreq[0]? with
      | none => none
      | some first => some (0, first)
    else some (array_index + 1, freq)

/-- The body of `if (RB0_Pressed)` in the loop of `main`: note selection,
`setPWMFrequency(freq); setPWMDutyCycleCCP2(PWM_DUTY_CYCLE); resetTimer0OneSecond();
RB0_Pressed = FALSE;`. -/
def handlePress (st : ToneState) : Option ToneState :=
  match nextNote st.array_index with
  | none => none
  | some (array_index, freq) =>
    some { resetTimer0OneSecond
            { st with
              array_index := array_index,
              regs := setPWMDutyCycleCCP2 PWM_DUTY_CYCLE (setPWMFrequency freq st.regs) } with
           RB0_Pressed := false }

/-- One iteration of `while (1)` in `main` of `PWM-MusicalTone.c`. -/
def mainLoopBody (st : ToneState) : Option ToneState :=
  if st.RB0_Pressed then handlePress st else some st

/-- `void ISR(void)`: a button interrupt sets `RB0_Pressed`, a Timer 0 overflow calls
`setPWMDutyCycleCCP2(0)`. -/
def ISR (e : Event) (st : ToneState) : ToneState :=
  match e with
  | Event.buttonPress => { st with RB0_Pressed := true }
  | Event.timer0Overflow => { st with regs := setPWMDutyCycleCCP2 0 st.regs }

/-- An interrupt followed by one iteration of the main loop. -/
def stepEvent (e : Event) (st : ToneState) : Option ToneState :=
  mainLoopBody (ISR e st)

/-- The program run on a sequence of interrupts, each one served before the main loop
polls the flag again. -/
def runEvents : List Event → ToneState → Option ToneState
  | [], st => some st
  | e :: es, st =>
    match stepEvent e st with
    | none => none
    | some st1 => runEvents es st1

/-- The state in which `main` of `PWM-MusicalTone.c` enters its loop: `array_index = 0`,
`setPWMFrequency(ToneFreq[0]); setPWMDutyCycleCCP2(0);`. -/
def toneMainSetup (s : Regs) : ToneState :=
  { array_index := 0,
    regs := setPWMDutyCycleCCP2 0 (setPWMFrequency (ToneFreq.headD 0) s),
    TMR0H := 0,
    TMR0L := 0,
    RB0_Pressed := false }

/-- The frequency handed to `setPWMFrequency` when a button press is handled in a state
with the given `array_index`. -/
def pressFreq (array_index : Nat) : Option ℚ := (nextNote array_index).map Prod.snd

/-- The state after `k` handled button presses, none of them separated by a timer
overflow. -/
def afterPresses (k : Nat) (st : ToneState) : Option ToneState :=
  runEvents (List.replicate k Event.buttonPress) st

/-! ### Stores outside the range of `PR2`, and interrupts inside the press handler -/

/-- `setPWMFrequency` with the outcome of an out-of-range store left open. The conversion
of the expression to the 8-bit `PR2` is defined only while its integer part lies in
0..255; otherwise `PR2` is left with whatever byte `outOfRange` gives for the expression.
`setPWMFrequency` is the instance in which that byte is the low 8 bits of the integer
part. -/
def setPWMFrequencyAny (outOfRange : ℚ → Nat) (freq : ℚ) (s : Regs) : Regs :=
  { s with
    PR2 := if 0 ≤ periodValue freq ∧ periodValue freq ≤ 255 then (periodValue freq).toNat
      else outOfRange (periodExpr freq) % 256 }

/-- The places in the press handler of `PWM-MusicalTone.c` (lines 121 to 124) at which a
Timer 0 overflow interrupt can be served, told apart by their effect on the duty
registers: before the two duty stores of `setPWMDutyCycleCCP2(PWM_DUTY_CYCLE)`, between
them, and after them but before the handler ends. -/
structure Preemption where
  beforeStores : Bool
  betweenStores : Bool
  afterStores : Bool
  deriving DecidableEq, Repr

/-- The Timer 0 branch of `ISR`, `setPWMDutyCycleCCP2(0)`, run when an overflow is served. -/
def serveTimer0 (served : Bool) (s : Regs) : Regs :=
  if served then setPWMDutyCycleCCP2 0 s else s

/-- The register writes of lines 121 and 122, `setPWMFrequency(freq);
setPWMDutyCycleCCP2(PWM_DUTY_CYCLE);`, with the Timer 0 branch of `ISR` run at the places
named by `p`: `PR2` is written and read back into `pwm_period`, then `DC2B` and `CCPR2L`
are stored one after the other. -/
def handlePressRegs (p : Preemption) (freq : ℚ) (s : Regs) : Regs :=
  let s1 := serveTimer0 p.beforeStores (setPWMFrequency freq s)
  let pwm_duty_cycle := dutyCycleValue PWM_DUTY_CYCLE (s1.PR2 : Int)
  let s2 := serveTimer0 p.betweenStores { s1 with DC2B := toReg 2 (pwm_duty_cycle % 4) }
  serveTimer0 p.afterStores { s2 with CCPR2L := toReg 8 (pwm_duty_cycle / 4) }

/-- The body of `if (RB0_Pressed)` as in `handlePress`, with Timer 0 overflows served
inside it at the places named by `p`. -/
def handlePressPreempted (p : Preemption) (st : ToneState) : Option ToneState :=
  match nextNote st.array_index with
  | none => none
  | some (array_index, freq) =>
    some { resetTimer0OneSecond
            { st with
              array_index := array_index,
              regs := handlePressRegs p freq st.regs } with
           RB0_Pressed := false }

/-! ## Auxiliary lemmas -/

theorem truncToInt_of_nonneg {x : ℚ} (hx : 0 ≤ x) : truncToInt x = ⌊x⌋ := by
  unfold truncToInt
  rw [Rat.floor_def, Int.tdiv_eq_ediv (Rat.num_nonneg.mpr hx) (by positivity)]

theorem freqMin_eq : freqMin = 78125 / 128 := by
  norm_num [freqMin, PWM_PRESCALE, FOSC]

theorem freqMax_eq : freqMax = 156250 := by
  norm_num [freqMax, PWM_PRESCALE, FOSC]

theorem periodExpr_eq (f : ℚ) : periodExpr f = 156250 / f - 1 := by
  unfold periodExpr FOSC PWM_PRESCALE
  rcases eq_or_ne f 0 with h | h
  · simp [h]
  · field_simp
    ring

theorem toReg_cast {bits : Nat} {v : Int} (h0 : 0 ≤ v) (h1 : v < 2 ^ bits) :
    ((toReg bits v : Nat) : Int) = v := by
  unfold toReg
  rw [Int.emod_eq_of_lt h0 h1, Int.toNat_of_nonneg h0]

theorem dutyCycleValue_eq_floor {pct P : Int} (h0 : 0 ≤ pct) (hP : 0 ≤ P) :
    dutyCycleValue pct P = ⌊(pct : ℚ) / 100 * ((P : ℚ) + 1) * 4 + 1 / 2⌋ := by
  have h0q : (0 : ℚ) ≤ (pct : ℚ) := by exact_mod_cast h0
  have hPq : (0 : ℚ) ≤ (P : ℚ) := by exact_mod_cast hP
  unfold dutyCycleValue round
  rw [truncToInt_of_nonneg]
  · congr 1
    push_cast
    ring
  · push_cast
    positivity

/-- The number of timer ticks asked for, `0.25 * FOSC / f / PWM_PRESCALE`, is `156250 / f`;
for a positive frequency up to `freqMax` the derived period is its floor less one. -/
theorem periodValue_of_le_freqMax {f : ℚ} (hpos : 0 < f) (hmax : f ≤ freqMax) :
    periodValue f = ⌊156250 / f⌋ - 1 := by
  rw [freqMax_eq] at hmax
  have hx : (1 : ℚ) ≤ 156250 / f := by
    rw [le_div_iff₀ hpos]
    linarith
  unfold periodValue
  rw [periodExpr_eq, truncToInt_of_nonneg (by linarith), Int.floor_sub_one]

theorem periodValue_in_range {f : ℚ} (hmin : freqMin ≤ f) (hmax : f ≤ freqMax) :
    0 ≤ periodValue f ∧ periodValue f ≤ 255 := by
  have hpos : (0 : ℚ) < f := by
    rw [freqMin_eq] at hmin
    linarith
  rw [periodValue_of_le_freqMax hpos hmax]
  rw [freqMin_eq] at hmin
  rw [freqMax_eq] at hmax
  have hx1 : (1 : ℚ) ≤ 156250 / f := by
    rw [le_div_iff₀ hpos]
    linarith
  have hx2 : 156250 / f ≤ 256 := by
    rw [div_le_iff₀ hpos]
    linarith
  have h1 : (1 : Int) ≤ ⌊156250 / f⌋ := Int.le_floor.mpr (by exact_mod_cast hx1)
  have h2 : ⌊156250 / f⌋ ≤ 256 := by
    have h := Int.floor_le (156250 / f)
    have h3 : ((⌊156250 / f⌋ : Int) : ℚ) ≤ ((256 : Int) : ℚ) := by
      push_cast
      linarith
    exact_mod_cast h3
  constructor <;> linarith

theorem PR2_in_range {f : ℚ} (s : Regs) (hmin : freqMin ≤ f) (hmax : f ≤ freqMax) :
    ((setPWMFrequency f s).PR2 : Int) = periodValue f := by
  obtain ⟨h0, h1⟩ := periodValue_in_range hmin hmax
  show ((toReg 8 (periodValue f) : Nat) : Int) = periodValue f
  exact toReg_cast h0 (by norm_num; linarith)

theorem truncToInt_eq_of_bounds {x : ℚ} {z : Int} (h0 : 0 ≤ z) (h1 : (z : ℚ) ≤ x)
    (h2 : x < (z : ℚ) + 1) : truncToInt x = z := by
  have hz : (0 : ℚ) ≤ (z : ℚ) := by exact_mod_cast h0
  rw [truncToInt_of_nonneg (by linarith), Int.floor_eq_iff]
  exact ⟨h1, h2⟩

theorem periodValue_eq_of_bounds {f : ℚ} {z : Int} (hf : 0 < f) (h0 : 0 ≤ z)
    (h1 : ((z : ℚ) + 1) * f ≤ 156250) (h2 : 156250 < ((z : ℚ) + 2) * f) :
    periodValue f = z := by
  unfold periodValue
  rw [periodExpr_eq]
  apply truncToInt_eq_of_bounds h0
  · rw [le_sub_iff_add_le, le_div_iff₀ hf]
    exact h1
  · rw [sub_lt_iff_lt_add, div_lt_iff₀ hf]
    linarith

theorem dutyCycleValue_eq_of_bounds {pct P z : Int} (h0 : 0 ≤ pct) (hP : 0 ≤ P)
    (h1 : 50 * z ≤ 2 * pct * (P + 1) + 25) (h2 : 2 * pct * (P + 1) + 25 < 50 * (z + 1)) :
    dutyCycleValue pct P = z := by
  rw [dutyCycleValue_eq_floor h0 hP, Int.floor_eq_iff]
  have h1q : ((50 * z : Int) : ℚ) ≤ ((2 * pct * (P + 1) + 25 : Int) : ℚ) := by exact_mod_cast h1
  have h2q : ((2 * pct * (P + 1) + 25 : Int) : ℚ) < ((50 * (z + 1) : Int) : ℚ) := by
    exact_mod_cast h2
  push_cast at h1q h2q
  constructor <;> linarith

theorem toReg_lt (bits : Nat) (v : Int) : ((toReg bits v : Nat) : Int) < 2 ^ bits := by
  unfold toReg
  have hpos : (0 : Int) < 2 ^ bits := by positivity
  rw [Int.toNat_of_nonneg (Int.emod_nonneg v (ne_of_gt hpos))]
  exact Int.emod_lt_of_pos v hpos

theorem dutyCycleValue_nonneg {pct P : Int} (h0 : 0 ≤ pct) (hP : 0 ≤ P) :
    0 ≤ dutyCycleValue pct P := by
  have h0q : (0 : ℚ) ≤ (pct : ℚ) := by exact_mod_cast h0
  have hPq : (0 : ℚ) ≤ (P : ℚ) := by exact_mod_cast hP
  rw [dutyCycleValue_eq_floor h0 hP]
  apply Int.floor_nonneg.mpr
  positivity

/-- Within the percentages 0..100 and periods 0..255 the duty value stays below 1024,
the single exception being 100 % with period 255. -/
theorem dutyCycleValue_lt_1024 {pct P : Int} (h0 : 0 ≤ pct) (h100 : pct ≤ 100) (hP0 : 0 ≤ P)
    (hP : P ≤ 255) (hne : ¬ (pct = 100 ∧ P = 255)) : dutyCycleValue pct P < 1024 := by
  have hprod : pct * (P + 1) ≤ 25500 := by
    rcases lt_or_ge pct 100 with hlt | hge
    · have h99 : pct ≤ 99 := by omega
      nlinarith
    · have hpct : pct = 100 := le_antisymm h100 hge
      have hP254 : P ≤ 254 := by
        by_contra hcon
        exact hne ⟨hpct, by omega⟩
      rw [hpct]
      linarith
  have hq : ((pct * (P + 1) : Int) : ℚ) ≤ ((25500 : Int) : ℚ) := by exact_mod_cast hprod
  push_cast at hq
  rw [dutyCycleValue_eq_floor h0 hP0, Int.floor_lt]
  push_cast
  linarith

/-- A duty value below 1024 is recovered from the two register parts. -/
theorem writeDuty_lossless {d : Int} (s : Regs) (h0 : 0 ≤ d) (h1 : d < 1024) :
    4 * ((writeDuty d s).CCPR2L : Int) + ((writeDuty d s).DC2B : Int) = d := by
  show 4 * ((toReg 8 (d / 4) : Nat) : Int) + ((toReg 2 (d % 4) : Nat) : Int) = d
  rw [toReg_cast (by omega) (by norm_num; omega), toReg_cast (by omega) (by norm_num; omega)]
  omega

theorem adcFreq_1023_period : periodValue (adcFreq 1023) = 73 := by
  apply periodValue_eq_of_bounds <;> norm_num [adcFreq]

/-- From an index in 0..7 the note selection reads inside the table and returns the next
index modulo 8 together with the note stored there, which is never the end marker. -/
theorem nextNote_of_le {i : Nat} (hi : i ≤ 7) :
    ∃ f, nextNote i = some ((i + 1) % 8, f) ∧ ToneFreq[(i + 1) % 8]? = some f ∧ f ≠ -1 ∧
      f ∈ ToneFreq.take 8 ∧ 1046.50 ≤ f ∧ f ≤ 2093.00 := by
  interval_cases i
  · exact ⟨1174.66, by norm_num [nextNote, ToneFreq], by simp [ToneFreq], by norm_num,
      by simp [ToneFreq], by norm_num, by norm_num⟩
  · exact ⟨1318.51, by norm_num [nextNote, ToneFreq], by simp [ToneFreq], by norm_num,
      by simp [ToneFreq], by norm_num, by norm_num⟩
  · exact ⟨1396.91, by norm_num [nextNote, ToneFreq], by simp [ToneFreq], by norm_num,
      by simp [ToneFreq], by norm_num, by norm_num⟩
  · exact ⟨1567.98, by norm_num [nextNote, ToneFreq], by simp [ToneFreq], by norm_num,
      by simp [ToneFreq], by norm_num, by norm_num⟩
  · exact ⟨1760.00, by norm_num [nextNote, ToneFreq], by simp [ToneFreq], by norm_num,
      by simp [ToneFreq], by norm_num, by norm_num⟩
  · exact ⟨1975.53, by norm_num [nextNote, ToneFreq], by simp [ToneFreq], by norm_num,
      by simp [ToneFreq], by norm_num, by norm_num⟩
  · exact ⟨2093.00, by norm_num [nextNote, ToneFreq], by simp [ToneFreq], by norm_num,
      by simp [ToneFreq], by norm_num, by norm_num⟩
  · exact ⟨1046.50, by norm_num [nextNote, ToneFreq], by simp [ToneFreq], by norm_num,
      by simp [ToneFreq], by norm_num, by norm_num⟩

theorem note_in_valid_range {f : ℚ} (h1 : 1046.50 ≤ f) (h2 : f ≤ 2093.00) :
    freqMin ≤ f ∧ f ≤ freqMax := by
  rw [freqMin_eq, freqMax_eq]
  constructor
  · norm_num at h1 ⊢
    linarith
  · norm_num at h2 ⊢
    linarith

theorem handlePress_of_nextNote {st : ToneState} {j : Nat} {f : ℚ}
    (h : nextNote st.array_index = some (j, f)) :
    handlePress st =
      some { array_index := j,
             regs := setPWMDutyCycleCCP2 PWM_DUTY_CYCLE (setPWMFrequency f st.regs),
             TMR0H := (TIMER0_RESET_VAL / 256) % 256,
             TMR0L := TIMER0_RESET_VAL % 256,
             RB0_Pressed := false } := by
  unfold handlePress
  rw [h]
  rfl

theorem stepEvent_press_of_nextNote {st : ToneState} {j : Nat} {f : ℚ}
    (h : nextNote st.array_index = some (j, f)) :
    stepEvent Event.buttonPress st =
      some { array_index := j,
             regs := setPWMDutyCycleCCP2 PWM_DUTY_CYCLE (setPWMFrequency f st.regs),
             TMR0H := (TIMER0_RESET_VAL / 256) % 256,
             TMR0L := TIMER0_RESET_VAL % 256,
             RB0_Pressed := false } := by
  show handlePress { st with RB0_Pressed := true } = _
  exact @handlePress_of_nextNote { st with RB0_Pressed := true } j f h

theorem handlePress_index {st : ToneState} (hi : st.array_index ≤ 7) :
    ∃ st1, handlePress st = some st1 ∧ st1.array_index = (st.array_index + 1) % 8 := by
  obtain ⟨f, hf, -⟩ := nextNote_of_le hi
  exact ⟨_, handlePress_of_nextNote hf, rfl⟩

theorem stepEvent_press_index {st : ToneState} (hi : st.array_index ≤ 7) :
    ∃ st1, stepEvent Event.buttonPress st = some st1 ∧
      st1.array_index = (st.array_index + 1) % 8 := by
  have h : stepEvent Event.buttonPress st = handlePress { st with RB0_Pressed := true } := rfl
  rw [h]
  exact @handlePress_index { st with RB0_Pressed := true } hi

/-- Every interrupt followed by a main-loop iteration keeps `array_index` within 0..7. -/
theorem stepEvent_index_le (e : Event) {st : ToneState} (hi : st.array_index ≤ 7) :
    ∃ st1, stepEvent e st = some st1 ∧ st1.array_index ≤ 7 := by
  cases e with
  | buttonPress =>
    obtain ⟨st1, h1, h2⟩ := stepEvent_press_index hi
    exact ⟨st1, h1, by omega⟩
  | timer0Overflow =>
    cases hb : st.RB0_Pressed with
    | false =>
      refine ⟨{ st with regs := setPWMDutyCycleCCP2 0 st.regs }, ?_, hi⟩
      simp [stepEvent, ISR, mainLoopBody, hb]
    | true =>
      obtain ⟨st1, h1, h2⟩ :=
        @handlePress_index { st with regs := setPWMDutyCycleCCP2 0 st.regs } hi
      refine ⟨st1, ?_, by omega⟩
      simp only [stepEvent, ISR, mainLoopBody, hb]
      simpa using h1

theorem runEvents_index_le (es : List Event) :
    ∀ {st : ToneState}, st.array_index ≤ 7 →
      ∃ st1, runEvents es st = some st1 ∧ st1.array_index ≤ 7 := by
  induction es with
  | nil =>
    intro st hi
    exact ⟨st, rfl, hi⟩
  | cons e es ih =>
    intro st hi
    obtain ⟨st1, h1, h2⟩ := stepEvent_index_le e hi
    obtain ⟨st2, h3, h4⟩ := ih h2
    refine ⟨st2, ?_, h4⟩
    simp only [runEvents, h1]
    exact h3

theorem afterPresses_index (k : Nat) :
    ∀ {st : ToneState}, st.array_index ≤ 7 →
      ∃ st1, afterPresses k st = some st1 ∧ st1.array_index = (st.array_index + k) % 8 := by
  induction k with
  | zero =>
    intro st hi
    exact ⟨st, rfl, by omega⟩
  | succ k ih =>
    intro st hi
    obtain ⟨st1, h1, h2⟩ := stepEvent_press_index hi
    obtain ⟨st2, h3, h4⟩ := @ih st1 (by omega)
    refine ⟨st2, ?_, by omega⟩
    unfold afterPresses at h3 ⊢
    simp only [List.replicate_succ, runEvents, h1]
    exact h3

/-- The model `setPWMFrequency` is `setPWMFrequencyAny` with the low 8 bits of the integer
part as the out-of-range byte. -/
theorem setPWMFrequency_eq_any (f : ℚ) (s : Regs) :
    setPWMFrequency f s = setPWMFrequencyAny (fun x => toReg 8 (truncToInt x)) f s := by
  unfold setPWMFrequency setPWMFrequencyAny
  congr 1
  split_ifs with h
  · have hc := @toReg_cast 8 (periodValue f) h.1 (by norm_num; omega)
    omega
  · have hlt := toReg_lt 8 (truncToInt (periodExpr f))
    norm_num at hlt
    show toReg 8 (periodValue f) = toReg 8 (truncToInt (periodExpr f)) % 256
    unfold periodValue
    omega

theorem serveTimer0_PR2 (served : Bool) (s : Regs) : (serveTimer0 served s).PR2 = s.PR2 := by
  cases served <;> rfl

/-- With no overflow served inside the handler, `handlePressPreempted` is `handlePress`. -/
theorem handlePressPreempted_none (st : ToneState) :
    handlePressPreempted { beforeStores := false, betweenStores := false, afterStores := false }
      st = handlePress st := by
  unfold handlePressPreempted handlePress
  cases nextNote st.array_index with
  | none => rfl
  | some r => rfl

/-- C2: for every percentage in 0..100 and every current period `PR2` in 0..255,
`setPWMDutyCycleCCP2` computes the duty value `floor(percentage / 100 * (PR2 + 1) * 4 + 1/2)`
and stores its two parts; with `PR2 = 148` and 10 % the duty value is 60, stored as high
part 15 and low bits 0. -/
theorem C2_duty_is_round_half_up (pct : Int) (s : Regs) (h0 : 0 ≤ pct) (h100 : pct ≤ 100)
    (hP : s.PR2 ≤ 255) :
    dutyCycleValue pct s.PR2 = ⌊(pct : ℚ) / 100 * ((s.PR2 : ℚ) + 1) * 4 + 1 / 2⌋ ∧
      setPWMDutyCycleCCP2 pct s =
        writeDuty ⌊(pct : ℚ) / 100 * ((s.PR2 : ℚ) + 1) * 4 + 1 / 2⌋ s ∧
      dutyCycleValue 10 148 = 60 ∧
      setPWMDutyCycleCCP2 10 { s with PR2 := 148 } = { PR2 := 148, CCPR2L := 15, DC2B := 0 } := by
  have hd := dutyCycleValue_eq_floor h0 (Int.ofNat_nonneg s.PR2)
  have h60 : dutyCycleValue 10 148 = 60 :=
    dutyCycleValue_eq_of_bounds (by norm_num) (by norm_num) (by norm_num) (by norm_num)
  refine ⟨by simpa using hd, ?_, h60, ?_⟩
  · unfold setPWMDutyCycleCCP2
    rw [hd]
    simp
  · unfold setPWMDutyCycleCCP2
    show writeDuty (dutyCycleValue 10 148) _ = _
    rw [h60]
    rfl

theorem C2_duty_is_round_half_up_witness :
    dutyCycleValue 10 (({ PR2 := 148, CCPR2L := 0, DC2B := 0 } : Regs).PR2 : Int) = 60 := by
  have h := (C2_duty_is_round_half_up 10 { PR2 := 148, CCPR2L := 0, DC2B := 0 }
    (by decide) (by decide) (by decide)).1
  rw [h, Int.floor_eq_iff]
  norm_num

/-- C3: for every period `P` the duty computation yields 0 for percentage 0 and exactly
`4 * (P + 1)` for percentage 100; `updateCCP2DutyCycle(100)` with the fixed period 19
yields duty 80, stored as high part 20 and low bits 0. -/
theorem C3_duty_zero_and_full_scale (P : Nat) (s : Regs) :
    dutyCycleValue 0 P = 0 ∧ dutyCycleValue 100 P = 4 * ((P : Int) + 1) ∧
      dutyCycleValue 100 PWM_PERIOD = 80 ∧
      updateCCP2DutyCycle 100 s = { s with CCPR2L := 20, DC2B := 0 } := by
  have hP : (0 : Int) ≤ (P : Int) := Int.ofNat_nonneg P
  have h80 : dutyCycleValue 100 PWM_PERIOD = 80 :=
    dutyCycleValue_eq_of_bounds (by norm_num) (by norm_num [PWM_PERIOD])
      (by norm_num [PWM_PERIOD]) (by norm_num [PWM_PERIOD])
  refine ⟨?_, ?_, h80, ?_⟩
  · exact dutyCycleValue_eq_of_bounds (le_refl 0) hP (by norm_num) (by norm_num)
  · exact dutyCycleValue_eq_of_bounds (by norm_num) hP (by linarith) (by linarith)
  · unfold updateCCP2DutyCycle
    rw [h80]
    rfl

/-- C4: with Fosc = 10 MHz and prescale 16, `setPWMFrequency(1046.50)` (the C6 note)
stores the period value 148 in `PR2`. -/
theorem C4_C6_note_period (s : Regs) :
    periodValue 1046.50 = 148 ∧ setPWMFrequency 1046.50 s = { s with PR2 := 148 } := by
  have hp : periodValue 1046.50 = 148 :=
    periodValue_eq_of_bounds (by norm_num) (by norm_num) (by norm_num) (by norm_num)
  refine ⟨hp, ?_⟩
  unfold setPWMFrequency
  rw [hp]
  rfl

/-- C5 (as stated, refuted): with period 19 and percentage 100 the duty value is 80,
above the claimed upper bound `4 * (19 + 1) - 1 = 79`. -/
theorem C5_counterexample :
    dutyCycleValue 100 19 = 80 ∧ ¬ (dutyCycleValue 100 19 ≤ 4 * (19 + 1) - 1) := by
  have h80 : dutyCycleValue 100 19 = 80 :=
    dutyCycleValue_eq_of_bounds (by norm_num) (by norm_num) (by norm_num) (by norm_num)
  refine ⟨h80, ?_⟩
  rw [h80]
  norm_num

/-- C5 (amended): for every percentage in 0..100 and every period `P` in 0..255 the duty
value lies in `[0, 4 * (P + 1)]`; the upper end is reached at 100 %. -/
theorem C5_duty_within_full_scale (pct : Int) (P : Nat) (h0 : 0 ≤ pct) (h100 : pct ≤ 100)
    (hP : P ≤ 255) :
    0 ≤ dutyCycleValue pct P ∧ dutyCycleValue pct P ≤ 4 * ((P : Int) + 1) := by
  have hPi : (0 : Int) ≤ (P : Int) := Int.ofNat_nonneg P
  have h0q : (0 : ℚ) ≤ (pct : ℚ) := by exact_mod_cast h0
  have h100q : (pct : ℚ) ≤ 100 := by exact_mod_cast h100
  have hPq : (0 : ℚ) ≤ ((P : Int) : ℚ) := by exact_mod_cast hPi
  rw [dutyCycleValue_eq_floor h0 hPi]
  constructor
  · apply Int.floor_nonneg.mpr
    positivity
  · have hlt : ⌊(pct : ℚ) / 100 * (((P : Int) : ℚ) + 1) * 4 + 1 / 2⌋ < 4 * ((P : Int) + 1) + 1 := by
      rw [Int.floor_lt]
      push_cast
      have hmul : (pct : ℚ) * (((P : Nat) : ℚ) + 1) ≤ 100 * (((P : Nat) : ℚ) + 1) :=
        mul_le_mul_of_nonneg_right h100q (by positivity)
      linarith
    linarith

theorem C5_duty_within_full_scale_witness :
    0 ≤ dutyCycleValue 100 (19 : Nat) ∧ dutyCycleValue 100 (19 : Nat) ≤ 4 * (((19 : Nat) : Int) + 1) :=
  C5_duty_within_full_scale 100 19 (by decide) (by decide) (by decide)

/-- C6: for every target frequency `f` with `freqMin ≤ f ≤ freqMax`, where
`freqMin = Fosc / (4 * 256 * prescale)` (about 610 Hz) and `freqMax = Fosc / (4 * prescale)`
(156.25 kHz), the period value computed by `setPWMFrequency` lies in `[0, 255]`, so the
store to the 8-bit `PR2` keeps it unchanged. -/
theorem C6_period_fits_PR2 (f : ℚ) (s : Regs) (hmin : freqMin ≤ f) (hmax : f ≤ freqMax) :
    freqMin = FOSC / (4 * 256 * PWM_PRESCALE) ∧ freqMax = FOSC / (4 * PWM_PRESCALE) ∧
      (610 < freqMin ∧ freqMin < 611) ∧ freqMax = 156250 ∧
      0 ≤ periodValue f ∧ periodValue f ≤ 255 ∧
      ((setPWMFrequency f s).PR2 : Int) = periodValue f := by
  obtain ⟨h0, h1⟩ := periodValue_in_range hmin hmax
  refine ⟨?_, ?_, ?_, freqMax_eq, h0, h1, PR2_in_range s hmin hmax⟩
  · norm_num [freqMin, FOSC, PWM_PRESCALE]
  · norm_num [freqMax, FOSC, PWM_PRESCALE]
  · rw [freqMin_eq]
    norm_num

theorem C6_period_fits_PR2_witness :
    0 ≤ periodValue freqMax ∧ periodValue freqMax ≤ 255 :=
  have h := C6_period_fits_PR2 freqMax regs0 (by rw [freqMin_eq, freqMax_eq]; norm_num)
    (le_refl freqMax)
  ⟨h.2.2.2.2.1, h.2.2.2.2.2.1⟩

/-- C9 (round trip): for every target frequency `f` in the valid range, with `P` the period
stored by `setPWMFrequency f`, the ideal tick count `Fosc / (4 * prescale * f)` and the
integer `P + 1` differ by less than 1. -/
theorem C9_round_trip_within_one_tick (f : ℚ) (s : Regs) (hmin : freqMin ≤ f)
    (hmax : f ≤ freqMax) :
    |FOSC / (4 * PWM_PRESCALE * f) - (((setPWMFrequency f s).PR2 : ℚ) + 1)| < 1 := by
  have hpos : (0 : ℚ) < f := by
    rw [freqMin_eq] at hmin
    linarith
  have hP : ((setPWMFrequency f s).PR2 : Int) = ⌊156250 / f⌋ - 1 := by
    rw [PR2_in_range s hmin hmax, periodValue_of_le_freqMax hpos hmax]
  have hPq : ((setPWMFrequency f s).PR2 : ℚ) = (⌊156250 / f⌋ : ℚ) - 1 := by
    have h := congrArg (fun z : Int => (z : ℚ)) hP
    simpa using h
  have hx : FOSC / (4 * PWM_PRESCALE * f) = 156250 / f := by
    unfold FOSC PWM_PRESCALE
    field_simp
    ring
  rw [hx, hPq, abs_lt]
  have h1 := Int.floor_le (156250 / f)
  have h2 := Int.lt_floor_add_one (156250 / f)
  constructor <;> linarith

theorem C9_round_trip_within_one_tick_witness :
    |FOSC / (4 * PWM_PRESCALE * 1600) - (((setPWMFrequency 1600 regs0).PR2 : ℚ) + 1)| < 1 :=
  C9_round_trip_within_one_tick 1600 regs0 (by rw [freqMin_eq]; norm_num)
    (by rw [freqMax_eq]; norm_num)

/-- C10: for every percentage in 0..100 and every period `P` in 0..255, the duty value `d`
computed by `setPWMDutyCycleCCP2` satisfies
`|d / (4 * (P + 1)) - percentage / 100| ≤ 1 / (4 * (P + 1))`. -/
theorem C10_duty_ratio_error (pct : Int) (s : Regs) (h0 : 0 ≤ pct) (h100 : pct ≤ 100)
    (hP : s.PR2 ≤ 255) :
    setPWMDutyCycleCCP2 pct s = writeDuty (dutyCycleValue pct s.PR2) s ∧
      |(dutyCycleValue pct s.PR2 : ℚ) / (4 * ((s.PR2 : ℚ) + 1)) - (pct : ℚ) / 100| ≤
        1 / (4 * ((s.PR2 : ℚ) + 1)) := by
  refine ⟨rfl, ?_⟩
  have hd := dutyCycleValue_eq_floor h0 (Int.ofNat_nonneg s.PR2)
  have hD : (0 : ℚ) < 4 * ((s.PR2 : ℚ) + 1) := by positivity
  have h1 := Int.floor_le ((pct : ℚ) / 100 * ((s.PR2 : ℚ) + 1) * 4 + 1 / 2)
  have h2 := Int.lt_floor_add_one ((pct : ℚ) / 100 * ((s.PR2 : ℚ) + 1) * 4 + 1 / 2)
  have hd2 : (dutyCycleValue pct s.PR2 : ℚ) =
      (⌊(pct : ℚ) / 100 * ((s.PR2 : ℚ) + 1) * 4 + 1 / 2⌋ : ℚ) := by
    have h := congrArg (fun z : Int => (z : ℚ)) hd
    simpa using h
  rw [hd2]
  generalize ⌊(pct : ℚ) / 100 * ((s.PR2 : ℚ) + 1) * 4 + 1 / 2⌋ = d at h1 h2 ⊢
  have hsplit : (pct : ℚ) / 100 =
      ((pct : ℚ) / 100 * ((s.PR2 : ℚ) + 1) * 4) / (4 * ((s.PR2 : ℚ) + 1)) := by
    field_simp
    ring
  rw [hsplit, ← sub_div, abs_div, abs_of_pos hD]
  apply div_le_div_of_nonneg_right _ (le_of_lt hD)
  rw [abs_le]
  constructor <;> linarith

theorem C10_duty_ratio_error_witness :
    |(dutyCycleValue 10 (148 : Nat) : ℚ) / (4 * (((148 : Nat) : ℚ) + 1)) - ((10 : Int) : ℚ) / 100| ≤
      1 / (4 * (((148 : Nat) : ℚ) + 1)) :=
  (C10_duty_ratio_error 10 { PR2 := 148, CCPR2L := 0, DC2B := 0 } (by decide) (by decide)
    (by decide)).2

/-- C11 (as stated, refuted): with `PR2 = 255` and 100 % the duty value is 1024, an 11-bit
quantity; `CCPR2L` receives `256 mod 256 = 0` and `DC2B` receives 0, so
`4 * CCPR2L + DC2B = 0`. -/
theorem C11_counterexample :
    dutyCycleValue 100 255 = 1024 ∧
      setPWMDutyCycleCCP2 100 { PR2 := 255, CCPR2L := 7, DC2B := 1 } =
        { PR2 := 255, CCPR2L := 0, DC2B := 0 } ∧
      4 * ((setPWMDutyCycleCCP2 100 { PR2 := 255, CCPR2L := 7, DC2B := 1 }).CCPR2L : Int) +
          ((setPWMDutyCycleCCP2 100 { PR2 := 255, CCPR2L := 7, DC2B := 1 }).DC2B : Int) ≠
        dutyCycleValue 100 255 := by
  have hd : dutyCycleValue 100 255 = 1024 :=
    dutyCycleValue_eq_of_bounds (by norm_num) (by norm_num) (by norm_num) (by norm_num)
  have hs : setPWMDutyCycleCCP2 100 { PR2 := 255, CCPR2L := 7, DC2B := 1 } =
      { PR2 := 255, CCPR2L := 0, DC2B := 0 } := by
    show writeDuty (dutyCycleValue 100 255) _ = _
    rw [hd]
    rfl
  refine ⟨hd, hs, ?_⟩
  rw [hs, hd]
  norm_num

/-- C11 (amended): for every percentage in 0..100 and every period `PR2` in 0..255 other
than 100 % with `PR2 = 255`, the duty value is below 1024 (a 10-bit quantity) and the parts
stored in `CCPR2L` (`duty >> 2`) and `DC2B` (`duty & 0b11`) satisfy
`4 * CCPR2L + DC2B = duty`; the same holds for `updateCCP2DutyCycle` at every percentage
in 0..100. -/
theorem C11_split_is_lossless_below_1024 (pct : Int) (s : Regs) (h0 : 0 ≤ pct)
    (h100 : pct ≤ 100) (hP : s.PR2 ≤ 255) (hne : ¬ (pct = 100 ∧ s.PR2 = 255)) :
    (0 ≤ dutyCycleValue pct s.PR2 ∧ dutyCycleValue pct s.PR2 < 1024) ∧
      4 * ((setPWMDutyCycleCCP2 pct s).CCPR2L : Int) + ((setPWMDutyCycleCCP2 pct s).DC2B : Int) =
        dutyCycleValue pct s.PR2 ∧
      4 * ((updateCCP2DutyCycle pct s).CCPR2L : Int) + ((updateCCP2DutyCycle pct s).DC2B : Int) =
        dutyCycleValue pct PWM_PERIOD := by
  have hP0 : (0 : Int) ≤ (s.PR2 : Int) := Int.ofNat_nonneg s.PR2
  have hPi : (s.PR2 : Int) ≤ 255 := by exact_mod_cast hP
  have hnei : ¬ (pct = 100 ∧ (s.PR2 : Int) = 255) := by
    rintro ⟨h1, h2⟩
    exact hne ⟨h1, by exact_mod_cast h2⟩
  have hd0 := dutyCycleValue_nonneg h0 hP0
  have hd1 := dutyCycleValue_lt_1024 h0 h100 hP0 hPi hnei
  have he0 : 0 ≤ dutyCycleValue pct PWM_PERIOD := dutyCycleValue_nonneg h0 (by norm_num [PWM_PERIOD])
  have he1 : dutyCycleValue pct PWM_PERIOD < 1024 :=
    dutyCycleValue_lt_1024 h0 h100 (by norm_num [PWM_PERIOD]) (by norm_num [PWM_PERIOD])
      (by norm_num [PWM_PERIOD])
  exact ⟨⟨hd0, hd1⟩, writeDuty_lossless s hd0 hd1, writeDuty_lossless s he0 he1⟩

theorem C11_split_is_lossless_below_1024_witness :
    4 * ((setPWMDutyCycleCCP2 10 { PR2 := 148, CCPR2L := 0, DC2B := 0 }).CCPR2L : Int) +
        ((setPWMDutyCycleCCP2 10 { PR2 := 148, CCPR2L := 0, DC2B := 0 }).DC2B : Int) =
      dutyCycleValue 10 (({ PR2 := 148, CCPR2L := 0, DC2B := 0 } : Regs).PR2 : Int) :=
  (C11_split_is_lossless_below_1024 10 { PR2 := 148, CCPR2L := 0, DC2B := 0 } (by decide)
    (by decide) (by decide) (by decide)).2.1

/-- C12 (the code at the failing input): an iteration of the main loop of `adcpot_music.c`
never writes the duty registers; with `ADCResult = 1023` after the set-up, `PR2` becomes 73
while `CCPR2L:DC2B` still holds 60, the value computed for the initial `PR2 = 148`, and
not `round(10% * (73 + 1) * 4) = 30`. -/
theorem C12_loop_keeps_stale_duty (ADCResult : Nat) (s : Regs) :
    ((adcMainLoopBody ADCResult s).CCPR2L = s.CCPR2L ∧
        (adcMainLoopBody ADCResult s).DC2B = s.DC2B) ∧
      adcMainSetup regs0 = { PR2 := 148, CCPR2L := 15, DC2B := 0 } ∧
      adcMainLoopBody 1023 (adcMainSetup regs0) = { PR2 := 73, CCPR2L := 15, DC2B := 0 } ∧
      dutyCycleValue 10 73 = 30 ∧
      writeDuty (dutyCycleValue 10 73) { PR2 := 73, CCPR2L := 15, DC2B := 0 } =
        { PR2 := 73, CCPR2L := 7, DC2B := 2 } := by
  have hp : periodValue 1046.50 = 148 :=
    periodValue_eq_of_bounds (by norm_num) (by norm_num) (by norm_num) (by norm_num)
  have h60 : dutyCycleValue 10 148 = 60 :=
    dutyCycleValue_eq_of_bounds (by norm_num) (by norm_num) (by norm_num) (by norm_num)
  have h30 : dutyCycleValue 10 73 = 30 :=
    dutyCycleValue_eq_of_bounds (by norm_num) (by norm_num) (by norm_num) (by norm_num)
  have hsetup : adcMainSetup regs0 = { PR2 := 148, CCPR2L := 15, DC2B := 0 } := by
    unfold adcMainSetup setPWMFrequency
    rw [hp]
    show writeDuty (dutyCycleValue 10 148) _ = _
    rw [h60]
    rfl
  refine ⟨⟨rfl, rfl⟩, hsetup, ?_, h30, ?_⟩
  · rw [hsetup]
    unfold adcMainLoopBody setPWMFrequency
    rw [adcFreq_1023_period]
    rfl
  · rw [h30]
    rfl

/-- C14: in the ADC-driven tone program, for every 10-bit ADC result `a` in 0..1023 the
requested frequency `a / 1024 * 1046.5 + 1046.50` lies between 1046.50 Hz (C6) and
2093.00 Hz (C7). -/
theorem C14_adc_frequency_range (a : Nat) (ha : a ≤ 1023) :
    1046.50 ≤ adcFreq a ∧ adcFreq a ≤ 2093.00 := by
  have h0 : (0 : ℚ) ≤ (a : ℚ) := Nat.cast_nonneg a
  have h1 : (a : ℚ) ≤ 1023 := by exact_mod_cast ha
  unfold adcFreq
  constructor
  · norm_num
    positivity
  · norm_num
    linarith

theorem C14_adc_frequency_range_witness :
    1046.50 ≤ adcFreq 1023 ∧ adcFreq 1023 ≤ 2093.00 :=
  C14_adc_frequency_range 1023 (by decide)

/-- C15: in the button-stepped PWM program, starting from the initial 10 %, after `n`
handled button presses the percentage is `(10 * (n + 1)) mod 110`; it is always a multiple
of 10 in `[0, 100]`. -/
theorem C15_percentage_after_presses (n : Nat) (s : Regs) :
    (ccp2AfterPresses n (ccp2MainSetup s)).pwm_percentage = (10 * ((n : Int) + 1)) % 110 ∧
      (10 : Int) ∣ (ccp2AfterPresses n (ccp2MainSetup s)).pwm_percentage ∧
      0 ≤ (ccp2AfterPresses n (ccp2MainSetup s)).pwm_percentage ∧
      (ccp2AfterPresses n (ccp2MainSetup s)).pwm_percentage ≤ 100 := by
  have hmain : (ccp2AfterPresses n (ccp2MainSetup s)).pwm_percentage =
      (10 * ((n : Int) + 1)) % 110 := by
    induction n with
    | zero => rfl
    | succ n ih =>
      show (if (ccp2AfterPresses n (ccp2MainSetup s)).pwm_percentage ≥ 100 then (0 : Int)
        else (ccp2AfterPresses n (ccp2MainSetup s)).pwm_percentage + 10) = _
      rw [ih]
      push_cast
      split_ifs <;> omega
  rw [hmain]
  refine ⟨rfl, ?_, ?_, ?_⟩ <;> omega

/-- C16 (the code at the failing input): the note selection increments `array_index` before
the table read, so after `k` handled presses `array_index` is `k mod 8` and press number
`k + 1` hands `ToneFreq[(k + 1) mod 8]` to `setPWMFrequency`; the first press after
power-up plays `ToneFreq[1] = 1174.66` (D6), not `ToneFreq[0] = 1046.50` (C6). -/
theorem C16_first_press_plays_D6 (k : Nat) (s : Regs) :
    (∃ st, afterPresses k (toneMainSetup s) = some st ∧ st.array_index = k % 8 ∧
        pressFreq st.array_index = ToneFreq[(k + 1) % 8]?) ∧
      pressFreq (toneMainSetup s).array_index = some 1174.66 ∧
      ToneFreq[0]? = some (1046.50 : ℚ) ∧
      (∃ st, afterPresses 1 (toneMainSetup regs0) = some st ∧ st.array_index = 1 ∧
        st.regs = { PR2 := 132, CCPR2L := 13, DC2B := 1 }) := by
  have hinit : (toneMainSetup s).array_index ≤ 7 := by
    show (0 : Nat) ≤ 7
    omega
  have hfirst : nextNote 0 = some (1, 1174.66) := by norm_num [nextNote, ToneFreq]
  refine ⟨?_, ?_, by simp [ToneFreq], ?_⟩
  · obtain ⟨st, h1, h2⟩ := afterPresses_index k hinit
    have h3 : st.array_index = k % 8 := by
      rw [h2]
      show (0 + k) % 8 = k % 8
      rw [Nat.zero_add]
    have hle : st.array_index ≤ 7 := by omega
    obtain ⟨f, hf1, hf2, -⟩ := nextNote_of_le hle
    refine ⟨st, h1, h3, ?_⟩
    have hidx : (st.array_index + 1) % 8 = (k + 1) % 8 := by omega
    unfold pressFreq
    rw [hf1]
    show some f = _
    rw [← hidx, hf2]
  · show (nextNote 0).map Prod.snd = some 1174.66
    rw [hfirst]
    rfl
  · have hp : periodValue 1174.66 = 132 :=
      periodValue_eq_of_bounds (by norm_num) (by norm_num) (by norm_num) (by norm_num)
    have hd : dutyCycleValue 10 132 = 53 :=
      dutyCycleValue_eq_of_bounds (by norm_num) (by norm_num) (by norm_num) (by norm_num)
    have hstep := @stepEvent_press_of_nextNote (toneMainSetup regs0) 1 1174.66 hfirst
    have hrun : afterPresses 1 (toneMainSetup regs0) =
        some { array_index := 1,
               regs := setPWMDutyCycleCCP2 PWM_DUTY_CYCLE
                 (setPWMFrequency 1174.66 (toneMainSetup regs0).regs),
               TMR0H := (TIMER0_RESET_VAL / 256) % 256,
               TMR0L := TIMER0_RESET_VAL % 256,
               RB0_Pressed := false } := by
      show runEvents [Event.buttonPress] (toneMainSetup regs0) = _
      simp only [runEvents]
      rw [hstep]
    refine ⟨_, hrun, rfl, ?_⟩
    · show setPWMDutyCycleCCP2 PWM_DUTY_CYCLE (setPWMFrequency 1174.66 _) = _
      unfold setPWMFrequency
      rw [hp]
      show writeDuty (dutyCycleValue 10 132) _ = _
      rw [hd]
      rfl

/-- C17 (as stated, refuted): with period 0 and percentage 101 the duty value is 4, equal
to the full-scale value `4 * (0 + 1)` and not greater than it. -/
theorem C17_counterexample :
    (100 : Int) < 101 ∧ dutyCycleValue 101 0 = 4 ∧ ¬ (4 * (0 + 1) < dutyCycleValue 101 0) := by
  have h4 : dutyCycleValue 101 0 = 4 :=
    dutyCycleValue_eq_of_bounds (by norm_num) (by norm_num) (by norm_num) (by norm_num)
  refine ⟨by norm_num, h4, ?_⟩
  rw [h4]
  norm_num

/-- C17 (amended): for every percentage from 101 to 3199 and every period `PR2` in 0..255,
`setPWMDutyCycleCCP2` applies `floor(percentage / 100 * (PR2 + 1) * 4 + 1/2)` unclamped;
the duty value stays below `2 ^ 15`, is at least the full-scale value `4 * (PR2 + 1)`, and
exceeds it exactly when `(percentage - 100) * (PR2 + 1) ≥ 13`; with the fixed period 19 of
`updateCCP2DutyCycle` it always exceeds the full scale 80. -/
theorem C17_no_clamp_above_100 (pct : Int) (s : Regs) (h : 100 < pct) (hmax : pct ≤ 3199)
    (hP : s.PR2 ≤ 255) :
    setPWMDutyCycleCCP2 pct s =
        writeDuty ⌊(pct : ℚ) / 100 * ((s.PR2 : ℚ) + 1) * 4 + 1 / 2⌋ s ∧
      dutyCycleValue pct s.PR2 < 2 ^ 15 ∧
      4 * ((s.PR2 : Int) + 1) ≤ dutyCycleValue pct s.PR2 ∧
      (4 * ((s.PR2 : Int) + 1) < dutyCycleValue pct s.PR2 ↔
        13 ≤ (pct - 100) * ((s.PR2 : Int) + 1)) ∧
      4 * (PWM_PERIOD + 1) < dutyCycleValue pct PWM_PERIOD := by
  have h0 : (0 : Int) ≤ pct := by omega
  have hP0 : (0 : Int) ≤ (s.PR2 : Int) := Int.ofNat_nonneg s.PR2
  have hfl := dutyCycleValue_eq_floor h0 hP0
  simp only [Int.cast_natCast] at hfl
  have hpq : (100 : ℚ) < (pct : ℚ) := by exact_mod_cast h
  have hPq : (0 : ℚ) ≤ (s.PR2 : ℚ) := Nat.cast_nonneg s.PR2
  have key : ∀ z : Int, (z ≤ dutyCycleValue pct s.PR2 ↔
      (z : ℚ) ≤ (pct : ℚ) / 100 * ((s.PR2 : ℚ) + 1) * 4 + 1 / 2) := by
    intro z
    rw [hfl, Int.le_floor]
  refine ⟨?_, ?_, ?_, ?_, ?_⟩
  · unfold setPWMDutyCycleCCP2
    rw [hfl]
  · have hmaxq : (pct : ℚ) ≤ 3199 := by exact_mod_cast hmax
    have hPmax : (s.PR2 : ℚ) + 1 ≤ 256 := by
      have hPn : (s.PR2 : ℚ) ≤ 255 := by exact_mod_cast hP
      linarith
    have hprod : (pct : ℚ) * ((s.PR2 : ℚ) + 1) ≤ 3199 * 256 :=
      mul_le_mul hmaxq hPmax (by positivity) (by norm_num)
    rw [hfl, Int.floor_lt]
    push_cast
    linarith
  · rw [key]
    push_cast
    have hmul : (100 : ℚ) * ((s.PR2 : ℚ) + 1) ≤ (pct : ℚ) * ((s.PR2 : ℚ) + 1) :=
      mul_le_mul_of_nonneg_right (le_of_lt hpq) (by positivity)
    linarith
  · rw [Int.lt_iff_add_one_le, key]
    have hm : (((pct - 100) * ((s.PR2 : Int) + 1) : Int) : ℚ) =
        ((pct : ℚ) - 100) * ((s.PR2 : ℚ) + 1) := by
      push_cast
      ring
    generalize (pct - 100) * ((s.PR2 : Int) + 1) = m at hm ⊢
    push_cast
    constructor
    · intro hle
      have h2 : ((25 : Int) : ℚ) ≤ ((2 * m : Int) : ℚ) := by
        push_cast
        rw [hm]
        linarith
      have h3 : (25 : Int) ≤ 2 * m := by exact_mod_cast h2
      omega
    · intro hle
      have h2 : ((13 : Int) : ℚ) ≤ (m : ℚ) := by exact_mod_cast hle
      rw [hm] at h2
      push_cast at h2
      linarith
  · have hfl19 := @dutyCycleValue_eq_floor pct PWM_PERIOD h0
      (by norm_num [PWM_PERIOD])
    have h101 : (101 : ℚ) ≤ (pct : ℚ) := by exact_mod_cast (show (101 : Int) ≤ pct by omega)
    rw [Int.lt_iff_add_one_le, hfl19, Int.le_floor]
    norm_num [PWM_PERIOD]
    linarith

theorem C17_no_clamp_above_100_witness :
    4 * ((({ PR2 := 19, CCPR2L := 0, DC2B := 0 } : Regs).PR2 : Int) + 1) ≤
      dutyCycleValue 110 (({ PR2 := 19, CCPR2L := 0, DC2B := 0 } : Regs).PR2 : Int) :=
  (C17_no_clamp_above_100 110 { PR2 := 19, CCPR2L := 0, DC2B := 0 } (by decide) (by decide)
    (by decide)).2.2.1

/-- C18: for every count `n` in 0..9999, `mux_SetDigits(n)` stores the four decimal digits
of `n`, least significant first: each `mux_digits[i]` is in 0..9 and
`mux_digits[0] + 10 * mux_digits[1] + 100 * mux_digits[2] + 1000 * mux_digits[3] = n`. -/
theorem C18_mux_digits_decimal (n : Nat) (hn : n ≤ 9999) :
    ∃ d0 d1 d2 d3 : Nat, mux_SetDigits n = [d0, d1, d2, d3] ∧
      d0 ≤ 9 ∧ d1 ≤ 9 ∧ d2 ≤ 9 ∧ d3 ≤ 9 ∧ d0 + 10 * d1 + 100 * d2 + 1000 * d3 = n := by
  refine ⟨n % 10 % 256, n / 10 % 10 % 256, n / 10 / 10 % 10 % 256, n / 10 / 10 / 10 % 10 % 256,
    rfl, ?_, ?_, ?_, ?_, ?_⟩ <;> omega

theorem C18_mux_digits_decimal_witness :
    ∃ d0 d1 d2 d3 : Nat, mux_SetDigits 9876 = [d0, d1, d2, d3] ∧
      d0 ≤ 9 ∧ d1 ≤ 9 ∧ d2 ≤ 9 ∧ d3 ≤ 9 ∧ d0 + 10 * d1 + 100 * d2 + 1000 * d3 = 9876 :=
  C18_mux_digits_decimal 9876 (by decide)

/-- C19 (the code at the failing input): the display loop runs `i` over -16..16; for
`i = -16` and `i = 16` the index `(i < 0) ? -i : i` is 16, one past the last entry of the
16-entry table `SEVEN_SEG_CA`, and these are the only two loop values whose read falls
outside the table. -/
theorem C19_index_16_out_of_table :
    SEVEN_SEG_CA.length = 16 ∧ displayLoopValues.head? = some (-16) ∧
      sevSegIndex (-16) = 16 ∧ sevSegLookup (-16) = none ∧
      sevSegIndex 16 = 16 ∧ sevSegLookup 16 = none ∧
      displayLoopValues.filter (fun i => (sevSegLookup i).isNone) = [-16, 16] := by
  refine ⟨rfl, ?_, ?_, ?_, ?_, ?_, ?_⟩ <;> decide

/-- C20: in the musical-tone program, after every sequence of interrupts (button presses and
timer overflows) the run is defined, that is, no read of `ToneFreq` fell outside its nine
entries, and `array_index` is in 0..7; the next press then reads entry `array_index + 1`,
at most the ninth, and hands `setPWMFrequency` a frequency that is not the end marker but
one of the eight positive notes, inside the valid range and with a period in 0..255. -/
theorem C20_tone_index_in_bounds (es : List Event) (s : Regs) :
    ToneFreq.length = 9 ∧
      ∃ st, runEvents es (toneMainSetup s) = some st ∧ st.array_index ≤ 7 ∧
        st.array_index + 1 < ToneFreq.length ∧
        ∃ f, pressFreq st.array_index = some f ∧ f ≠ -1 ∧ f ∈ ToneFreq.take 8 ∧ 0 < f ∧
          (freqMin ≤ f ∧ f ≤ freqMax) ∧ (0 ≤ periodValue f ∧ periodValue f ≤ 255) ∧
          ((setPWMFrequency f st.regs).PR2 : Int) = periodValue f := by
  have hlen : ToneFreq.length = 9 := rfl
  have hinit : (toneMainSetup s).array_index ≤ 7 := by
    show (0 : Nat) ≤ 7
    omega
  obtain ⟨st, hrun, hle⟩ := runEvents_index_le es hinit
  obtain ⟨f, hf, -, hne, hmem, h1, h2⟩ := nextNote_of_le hle
  have hrange := note_in_valid_range h1 h2
  have hpos : (0 : ℚ) < f := by
    norm_num at h1
    linarith
  refine ⟨hlen, st, hrun, hle, by rw [hlen]; omega, f, ?_, hne, hmem, hpos, hrange,
    periodValue_in_range hrange.1 hrange.2, PR2_in_range st.regs hrange.1 hrange.2⟩
  unfold pressFreq
  rw [hf]
  rfl

end PWM
